import Mathlib

/-!
Verification of the bagelbot-backend specification against a shallow embedding
of `src/server.js`.

The embedding models:
* JavaScript number/string behaviour used by the allocator
  (`parseInt(String(x), 10)` with `Number.isFinite` guard);
* the `entries` and `store_status` tables as Lean lists plus a SERIAL counter;
* each Express route handler as a pure state-passing function;
* the concurrency model of section 5 of the spec: request tasks interleave at
  the datastore round trips, so a `POST /submit` is split into its two
  round trips (the `SELECT MAX` read and the `INSERT`).
-/

/-- One calendar day in the timestamp unit (seconds). `DATE(created_at)` of a
timestamp is its day index. -/
def secondsPerDay : Nat := 86400

/-- Day index of a timestamp, modelling `DATE(created_at)` and the
`getTodayDateString()` value for "now". -/
def dayOf (t : Nat) : Nat := t / secondsPerDay

/-- Decimal digit character, as produced by JavaScript number-to-string. -/
def digitChar : Nat → Char
  | 0 => '0' | 1 => '1' | 2 => '2' | 3 => '3' | 4 => '4'
  | 5 => '5' | 6 => '6' | 7 => '7' | 8 => '8' | _ => '9'

/-- Value of a little-endian decimal digit list. -/
def valLE : List Nat → Nat
  | [] => 0
  | d :: t => d + 10 * valLE t

/-- Little-endian decimal digits of `n` (fuel-based so the kernel can reduce it). -/
def natDigitsRevAux : Nat → Nat → List Nat
  | 0, _ => []
  | fuel + 1, n => if n < 10 then [n] else n % 10 :: natDigitsRevAux fuel (n / 10)

/-- Big-endian decimal character representation of a natural number. -/
def natToChars (n : Nat) : List Char :=
  ((natDigitsRevAux (n + 1) n).reverse).map digitChar

/-- JavaScript `String()` applied to an integer Number value (the shape in which
`pg` hands the `MAX(order_number)` aggregate back to the handler). -/
def jsIntToString (i : Int) : String :=
  if i < 0 then String.mk ('-' :: natToChars i.natAbs) else String.mk (natToChars i.toNat)

/-- Accumulate the leading decimal digits, as `parseInt` does. -/
def decFold (cs : List Char) : Nat :=
  cs.foldl (fun a c => a * 10 + (c.toNat - 48)) 0

/-- Value of the leading run of digits of `cs`; `none` when there is no digit
(`parseInt` returns `NaN` there, which fails the `Number.isFinite` guard). -/
def digitsVal (cs : List Char) : Option Nat :=
  if cs.takeWhile Char.isDigit = [] then none
  else some (decFold (cs.takeWhile Char.isDigit))

/-- `parseInt(·, 10)` after the leading whitespace has been dropped: an optional
single sign followed by the leading digit run. -/
def parseIntChars (cs : List Char) : Option Int :=
  match cs with
  | [] => none
  | c :: rest =>
    if c = '-' then (digitsVal rest).map (fun n => -(n : Int))
    else if c = '+' then (digitsVal rest).map (fun n => (n : Int))
    else (digitsVal (c :: rest)).map (fun n => (n : Int))

/-- JavaScript `parseInt(s, 10)`, returning `none` exactly when the result is
not finite (`NaN`). Values from the INTEGER column stay far below the range
where double rounding could reach infinity, so parsing is exact here. -/
def parseIntJS (s : String) : Option Int :=
  parseIntChars (s.toList.dropWhile Char.isWhitespace)

theorem natDigitsRevAux_spec : ∀ (fuel n : Nat), n < fuel →
    valLE (natDigitsRevAux fuel n) = n ∧ natDigitsRevAux fuel n ≠ [] ∧
      ∀ d ∈ natDigitsRevAux fuel n, d < 10 := by
  intro fuel
  induction fuel with
  | zero => intro n h; omega
  | succ f ih =>
    intro n h
    by_cases h10 : n < 10
    · simp [natDigitsRevAux, h10, valLE]
    · have hlt : n / 10 < f := by omega
      obtain ⟨hv, hne, hd⟩ := ih (n / 10) hlt
      simp only [natDigitsRevAux, if_neg h10]
      refine ⟨?_, by simp, ?_⟩
      · simp only [valLE, hv]; omega
      · intro d hdmem
        rcases List.mem_cons.mp hdmem with h1 | h2
        · omega
        · exact hd d h2

theorem digitChar_toNat (d : Nat) (h : d < 10) : (digitChar d).toNat - 48 = d := by
  interval_cases d <;> rfl

theorem digitChar_isDigit (d : Nat) (h : d < 10) : (digitChar d).isDigit = true := by
  interval_cases d <;> rfl

theorem digitChar_not_ws (d : Nat) (h : d < 10) : (digitChar d).isWhitespace = false := by
  interval_cases d <;> rfl

theorem digitChar_ne_dash (d : Nat) (h : d < 10) : digitChar d ≠ '-' := by
  interval_cases d <;> decide

theorem digitChar_ne_plus (d : Nat) (h : d < 10) : digitChar d ≠ '+' := by
  interval_cases d <;> decide

theorem decFold_digits : ∀ ds : List Nat, (∀ d ∈ ds, d < 10) →
    decFold ((ds.reverse).map digitChar) = valLE ds := by
  intro ds
  induction ds with
  | nil => intro _; rfl
  | cons d t ih =>
    intro h
    have hd : d < 10 := h d (List.mem_cons_self d t)
    have ht : ∀ x ∈ t, x < 10 := fun x hx => h x (List.mem_cons_of_mem d hx)
    rw [List.reverse_cons, List.map_append]
    unfold decFold
    rw [List.foldl_append]
    simp only [List.map_cons, List.map_nil, List.foldl_cons, List.foldl_nil]
    rw [digitChar_toNat d hd]
    have : decFold (t.reverse.map digitChar) = valLE t := ih ht
    unfold decFold at this
    rw [this]
    simp only [valLE]
    ring

theorem takeWhile_of_all {p : Char → Bool} : ∀ l : List Char,
    (∀ c ∈ l, p c = true) → l.takeWhile p = l := by
  intro l
  induction l with
  | nil => intro _; rfl
  | cons c t ih =>
    intro h
    simp only [List.takeWhile_cons, h c (List.mem_cons_self c t)]
    exact congrArg (c :: ·) (ih fun x hx => h x (List.mem_cons_of_mem c hx))

theorem dropWhile_of_none {p : Char → Bool} : ∀ l : List Char,
    (∀ c ∈ l, p c = false) → l.dropWhile p = l := by
  intro l
  induction l with
  | nil => intro _; rfl
  | cons c t _ =>
    intro h
    simp [List.dropWhile_cons, h c (List.mem_cons_self c t)]

theorem natToChars_digits (n : Nat) : ∀ c ∈ natToChars n, ∃ d, d < 10 ∧ c = digitChar d := by
  intro c hc
  obtain ⟨-, -, hd⟩ := natDigitsRevAux_spec (n + 1) n (Nat.lt_succ_self n)
  unfold natToChars at hc
  obtain ⟨d, hdm, hdc⟩ := List.mem_map.mp hc
  exact ⟨d, hd d (List.mem_reverse.mp hdm), hdc.symm⟩

theorem natToChars_ne_nil (n : Nat) : natToChars n ≠ [] := by
  obtain ⟨-, hne, -⟩ := natDigitsRevAux_spec (n + 1) n (Nat.lt_succ_self n)
  unfold natToChars
  simp [hne]

theorem digitsVal_natToChars (n : Nat) : digitsVal (natToChars n) = some n := by
  obtain ⟨hv, hne, hd⟩ := natDigitsRevAux_spec (n + 1) n (Nat.lt_succ_self n)
  have hall : ∀ c ∈ natToChars n, Char.isDigit c = true := by
    intro c hc
    obtain ⟨d, hd10, rfl⟩ := natToChars_digits n c hc
    exact digitChar_isDigit d hd10
  unfold digitsVal
  rw [takeWhile_of_all _ hall, if_neg (natToChars_ne_nil n)]
  unfold natToChars
  rw [decFold_digits _ hd, hv]

theorem dropWhile_ws_natToChars (n : Nat) :
    (natToChars n).dropWhile Char.isWhitespace = natToChars n := by
  apply dropWhile_of_none
  intro c hc
  obtain ⟨d, hd10, rfl⟩ := natToChars_digits n c hc
  exact digitChar_not_ws d hd10

theorem parseIntChars_natToChars (n : Nat) :
    parseIntChars (natToChars n) = some (n : Int) := by
  obtain ⟨c, rest, hcr⟩ := List.exists_cons_of_ne_nil (natToChars_ne_nil n)
  have hcmem : c ∈ natToChars n := by rw [hcr]; exact List.mem_cons_self c rest
  obtain ⟨d, hd10, rfl⟩ := natToChars_digits n c hcmem
  rw [hcr]
  simp only [parseIntChars]
  rw [if_neg (digitChar_ne_dash d hd10), if_neg (digitChar_ne_plus d hd10), ← hcr,
    digitsVal_natToChars]
  rfl

/-- `parseInt(String(m), 10)` recovers the integer `m`: the defensive parsing in
`getNextOrderNumber` is the identity on values actually stored in the INTEGER
column. -/
theorem parseIntJS_jsIntToString (m : Int) : parseIntJS (jsIntToString m) = some m := by
  cases m with
  | ofNat k =>
    have hnn : ¬ ((Int.ofNat k) < 0) := by
      show ¬ ((k : Int) < 0)
      omega
    unfold jsIntToString
    rw [if_neg hnn]
    unfold parseIntJS
    have htl : (String.mk (natToChars (Int.ofNat k).toNat)).toList
        = natToChars (Int.ofNat k).toNat := rfl
    rw [htl, dropWhile_ws_natToChars, parseIntChars_natToChars]
    rfl
  | negSucc j =>
    have hneg : (Int.negSucc j) < 0 := Int.negSucc_lt_zero j
    unfold jsIntToString
    rw [if_pos hneg]
    unfold parseIntJS
    have htl : (String.mk ('-' :: natToChars (Int.negSucc j).natAbs)).toList
        = '-' :: natToChars (Int.negSucc j).natAbs := rfl
    rw [htl]
    have hws : Char.isWhitespace '-' = false := by decide
    rw [List.dropWhile_cons_of_neg (by simp [hws])]
    simp only [parseIntChars, if_true]
    have habs : (Int.negSucc j).natAbs = j + 1 := rfl
    rw [habs, digitsVal_natToChars]
    simp [Int.negSucc_eq]

/-! ## Data model: the entries table -/

/-- A row of the `entries` table
(`id SERIAL PRIMARY KEY, order_number INTEGER, name VARCHAR, phone_number VARCHAR,
message TEXT NOT NULL, status VARCHAR DEFAULT New, created_at TIMESTAMP`). -/
structure Entry where
  id : Nat
  order_number : Option Int
  name : Option String
  phone_number : Option String
  message : String
  status : String
  created_at : Nat
deriving DecidableEq

/-- The entries table together with its SERIAL counter (Postgres SERIAL starts at 1). -/
structure EntriesDB where
  entries : List Entry
  nextId : Nat
deriving DecidableEq

def emptyDB : EntriesDB := { entries := [], nextId := 1 }

/-- A JSON entry object as the handlers serialise it: external camel-case names.
`id` is optional because the submit handler copies `order_number` (a nullable
column) into it. -/
structure EntryView where
  id : Option Int
  orderNumber : Option Int
  name : Option String
  phoneNumber : Option String
  message : String
  status : String
  created_at : Nat
deriving DecidableEq

/-- Row serialisation used by `GET /entries` and `PUT /entries/:id/status`:
the real surrogate key is exposed as `id`. -/
def viewOfEntry (e : Entry) : EntryView :=
  { id := some (e.id : Int), orderNumber := e.order_number, name := e.name,
    phoneNumber := e.phone_number, message := e.message, status := e.status,
    created_at := e.created_at }

/-- Row serialisation used by `POST /submit` (server.js line 126):
`id: row.order_number`, the order number is returned as the id. -/
def submitViewOfEntry (e : Entry) : EntryView :=
  { id := e.order_number, orderNumber := e.order_number, name := e.name,
    phoneNumber := e.phone_number, message := e.message, status := e.status,
    created_at := e.created_at }

/-! ## Order number allocator -/

/-- SQL `MAX` over the selected `order_number` values: `none` on the empty
selection (NULLs are already filtered out by `filterMap`). -/
def sqlMax : List Int → Option Int
  | [] => none
  | x :: xs =>
    match sqlMax xs with
    | none => some x
    | some m => some (max x m)

/-- Rows of `entries` whose `DATE(created_at)` is `today`. -/
def sameDayEntries (db : EntriesDB) (today : Nat) : List Entry :=
  db.entries.filter (fun e => dayOf e.created_at == today)

/-- Non-NULL `order_number` values of today's rows. -/
def sameDayNums (db : EntriesDB) (today : Nat) : List Int :=
  (sameDayEntries db today).filterMap Entry.order_number

/-- `SELECT MAX(order_number) FROM entries WHERE DATE(created_at) = today`. -/
def sameDayMax (db : EntriesDB) (today : Nat) : Option Int :=
  sqlMax (sameDayNums db today)

/-- server.js lines 82-89: the branch structure of `getNextOrderNumber` applied
to the raw value handed back by the driver (`null`/absent, or a numeric-ish
string). -/
def getNextOrderNumberRaw (maxOrder : Option String) : Int :=
  match maxOrder with
  | none => 100
  | some s =>
    match parseIntJS s with
    | some parsed => parsed + 1
    | none => 100

/-- server.js lines 71-95: query the same-day maximum and apply the raw logic.
The driver serialises the INTEGER aggregate, hence `jsIntToString`. -/
def getNextOrderNumber (db : EntriesDB) (today : Nat) : Int :=
  getNextOrderNumberRaw ((sameDayMax db today).map jsIntToString)

/-! ## POST /submit -/

/-- Request body of `POST /submit`. The handler destructures only `name`,
`phoneNumber` and `message`; a client-supplied `status` field is carried here
to show it is ignored. -/
structure SubmitBody where
  name : Option String
  phoneNumber : Option String
  message : Option String
  status : Option String
deriving DecidableEq

/-- JavaScript `!message` for the body's message field: truthy check fails for
an absent field and for the empty string. -/
def messageMissing (b : SubmitBody) : Bool :=
  match b.message with
  | none => true
  | some s => s == ""

inductive SubmitResp
  | badRequest
  | ok (entry : EntryView)
deriving DecidableEq

/-- The `INSERT INTO entries ... RETURNING *` round trip: appends the new row
(with the allocated number, status literal New, `created_at` set by the
datastore) and returns it. -/
def insertEntry (db : EntriesDB) (n : Int) (b : SubmitBody) (now : Nat) :
    EntriesDB × Entry :=
  let row : Entry :=
    { id := db.nextId, order_number := some n, name := b.name,
      phone_number := b.phoneNumber, message := b.message.getD "",
      status := "New", created_at := now }
  ({ entries := db.entries ++ [row], nextId := db.nextId + 1 }, row)

/-- server.js lines 102-140: the `POST /submit` handler, run sequentially
(both datastore round trips complete before anything else runs). -/
def submit (db : EntriesDB) (now : Nat) (b : SubmitBody) : EntriesDB × SubmitResp :=
  if messageMissing b then (db, SubmitResp.badRequest)
  else
    let r := insertEntry db (getNextOrderNumber db (dayOf now)) b now
    (r.1, SubmitResp.ok (submitViewOfEntry r.2))

/-- Sequential execution of a list of `(now, body)` submissions. -/
def runSubmits (db : EntriesDB) (calls : List (Nat × SubmitBody)) : EntriesDB :=
  calls.foldl (fun d c => (submit d c.1 c.2).1) db

/-! ## Interleaved execution of submissions (spec section 5)

A request task suspends at each datastore round trip, so a `POST /submit` is
two atomic steps: the `SELECT MAX` read (which fixes the task's order number)
and the `INSERT`. A schedule picks which task steps next. -/

inductive AllocPhase
  | start
  | allocated (n : Int)
  | finished
deriving DecidableEq

structure AllocTask where
  body : SubmitBody
  now : Nat
  phase : AllocPhase
deriving DecidableEq

/-- Run one datastore round trip of a task: the read fixes the number from the
current datastore state, the insert writes the row. -/
def stepTask (db : EntriesDB) (t : AllocTask) : EntriesDB × AllocTask :=
  match t.phase with
  | AllocPhase.start =>
    (db, { t with phase := AllocPhase.allocated (getNextOrderNumber db (dayOf t.now)) })
  | AllocPhase.allocated n =>
    ((insertEntry db n t.body t.now).1, { t with phase := AllocPhase.finished })
  | AllocPhase.finished => (db, t)

/-- Execute a schedule: each schedule item names the task that performs its
next datastore round trip. -/
def runSchedule (db : EntriesDB) (tasks : List AllocTask) (sched : List Nat) :
    EntriesDB × List AllocTask :=
  sched.foldl
    (fun st i =>
      match st.2[i]? with
      | none => st
      | some t => ((stepTask st.1 t).1, st.2.set i (stepTask st.1 t).2))
    (db, tasks)

/-! ## GET /entries -/

/-- JavaScript `if (status)` on the query parameter: taken only when the
parameter is present and non-empty. -/
def statusTruthy (o : Option String) : Bool :=
  match o with
  | none => false
  | some s => !(s == "")

/-- `ORDER BY created_at DESC`. -/
def createdDesc (a b : Entry) : Prop := b.created_at ≤ a.created_at

instance : DecidableRel createdDesc := fun a b => Nat.decLe b.created_at a.created_at

instance : IsTotal Entry createdDesc :=
  ⟨fun a b => Nat.le_total b.created_at a.created_at⟩

instance : IsTrans Entry createdDesc :=
  ⟨fun _ _ _ hab hbc => Nat.le_trans hbc hab⟩

def sortByCreated (l : List Entry) : List Entry := List.insertionSort createdDesc l

/-- server.js lines 143-174: the `GET /entries` handler. Optional exact filter
on `status`, then `ORDER BY created_at DESC`; read-only. -/
def listEntries (db : EntriesDB) (statusParam : Option String) :
    EntriesDB × List EntryView :=
  let rows :=
    if statusTruthy statusParam then
      db.entries.filter (fun e => e.status == statusParam.getD "")
    else db.entries
  (db, (sortByCreated rows).map viewOfEntry)

/-! ## PUT /entries/:id/status -/

inductive UpdateResp
  | badRequest
  | notFound
  | ok (entry : EntryView)
deriving DecidableEq

/-- JavaScript `!status` on the body field. -/
def statusMissingB (o : Option String) : Bool :=
  match o with
  | none => true
  | some s => s == ""

/-- server.js lines 177-217: the `PUT /entries/:id/status` handler. The
`UPDATE ... WHERE id = $2 RETURNING *` statement rewrites every matching row
and hands back the rewritten rows; an empty result is a 404. -/
def updateStatus (db : EntriesDB) (id : Nat) (status : Option String) :
    EntriesDB × UpdateResp :=
  if statusMissingB status then (db, UpdateResp.badRequest)
  else
    let s := status.getD ""
    let newEntries := db.entries.map (fun e => if e.id == id then { e with status := s } else e)
    let returned := newEntries.filter (fun e => e.id == id)
    let db' : EntriesDB := { db with entries := newEntries }
    match returned.head? with
    | none => (db', UpdateResp.notFound)
    | some row => (db', UpdateResp.ok (viewOfEntry row))

/-! ## Store status routes -/

/-- A row of `store_status (id SERIAL, store_closed BOOLEAN, notes TEXT)`. -/
structure StoreRow where
  id : Nat
  store_closed : Bool
  notes : String
deriving DecidableEq

structure StoreDB where
  rows : List StoreRow
  nextId : Nat
deriving DecidableEq

def emptyStoreDB : StoreDB := { rows := [], nextId := 1 }

/-- `process.env.STORE_ADMIN_KEY || 'bagel2024secret'`: the configured key,
falling back to the hardcoded default when the variable is unset or empty. -/
def validKey (envKey : Option String) : String :=
  match envKey with
  | none => "bagel2024secret"
  | some s => if s = "" then "bagel2024secret" else s

/-- server.js lines 55-63: `if (!apiKey || apiKey !== VALID_KEY)` fails the
request; `next()` otherwise. `true` means authorized. -/
def checkApiKey (apiKey envKey : Option String) : Bool :=
  match apiKey with
  | none => false
  | some k => if k = "" then false else k == validKey envKey

inductive StoreResp
  | forbidden
  | getOk (store_closed : Bool) (notes : String)
  | putOk (row : StoreRow)
deriving DecidableEq

/-- `PUT /store-status` request body; `notes || ''` turns an absent notes field
into the empty string. -/
structure PutBody where
  store_closed : Bool
  notes : Option String
deriving DecidableEq

def jsOrEmpty (o : Option String) : String :=
  match o with
  | none => ""
  | some s => s

/-- server.js lines 220-240: the `GET /store-status` route behind `checkApiKey`.
The third component counts datastore round trips. -/
def getStoreStatusRoute (apiKey envKey : Option String) (db : StoreDB) :
    StoreDB × StoreResp × Nat :=
  if checkApiKey apiKey envKey then
    match db.rows.head? with
    | none =>
      let row : StoreRow := { id := db.nextId, store_closed := false, notes := "" }
      ({ rows := db.rows ++ [row], nextId := db.nextId + 1 }, StoreResp.getOk false "", 2)
    | some r => (db, StoreResp.getOk r.store_closed r.notes, 1)
  else (db, StoreResp.forbidden, 0)

/-- server.js lines 243-269: the `PUT /store-status` route behind `checkApiKey`. -/
def putStoreStatusRoute (apiKey envKey : Option String) (b : PutBody) (db : StoreDB) :
    StoreDB × StoreResp × Nat :=
  if checkApiKey apiKey envKey then
    match db.rows.head? with
    | none =>
      let row : StoreRow :=
        { id := db.nextId, store_closed := b.store_closed, notes := jsOrEmpty b.notes }
      ({ rows := db.rows ++ [row], nextId := db.nextId + 1 }, StoreResp.putOk row, 2)
    | some r =>
      let newRows := db.rows.map (fun x =>
        if x.id == r.id then { x with store_closed := b.store_closed, notes := jsOrEmpty b.notes }
        else x)
      ({ db with rows := newRows },
        StoreResp.putOk { r with store_closed := b.store_closed, notes := jsOrEmpty b.notes }, 2)
  else (db, StoreResp.forbidden, 0)

/-! ## Allocator lemmas -/

/-- The allocation result as a function of the same-day maximum: the defensive
parse branch is the identity on stored integers. -/
theorem getNextOrderNumberRaw_int (m : Int) :
    getNextOrderNumberRaw (some (jsIntToString m)) = m + 1 := by
  simp only [getNextOrderNumberRaw]
  rw [parseIntJS_jsIntToString]

theorem getNextOrderNumber_eq (db : EntriesDB) (today : Nat) :
    getNextOrderNumber db today =
      match sameDayMax db today with
      | none => 100
      | some m => m + 1 := by
  unfold getNextOrderNumber
  cases h : sameDayMax db today with
  | none => rfl
  | some m => exact getNextOrderNumberRaw_int m

theorem sqlMax_le : ∀ (l : List Int) (k : Int), k ∈ l →
    ∃ m, sqlMax l = some m ∧ k ≤ m := by
  intro l
  induction l with
  | nil => intro k hk; exact absurd hk (List.not_mem_nil k)
  | cons x xs ih =>
    intro k hk
    rcases List.mem_cons.mp hk with rfl | hmem
    · cases h : sqlMax xs with
      | none => exact ⟨k, by simp [sqlMax, h], le_refl k⟩
      | some m => exact ⟨max k m, by simp [sqlMax, h], le_max_left k m⟩
    · obtain ⟨m, hm, hle⟩ := ih k hmem
      exact ⟨max x m, by simp [sqlMax, hm], le_trans hle (le_max_right x m)⟩

/-- Every same-day order number is strictly below the freshly allocated one. -/
theorem mem_lt_next (db : EntriesDB) (today : Nat) (k : Int)
    (hk : k ∈ sameDayNums db today) : k < getNextOrderNumber db today := by
  obtain ⟨m, hm, hle⟩ := sqlMax_le (sameDayNums db today) k hk
  rw [getNextOrderNumber_eq]
  have hmax : sameDayMax db today = some m := hm
  rw [hmax]
  show k < m + 1
  omega

/-- Effect of one sequential submission on the same-day order numbers. -/
theorem sameDayNums_submit (db : EntriesDB) (now : Nat) (b : SubmitBody) (today : Nat)
    (hm : messageMissing b = false) :
    sameDayNums (submit db now b).1 today =
      sameDayNums db today ++
        (if dayOf now = today then [getNextOrderNumber db (dayOf now)] else []) := by
  simp only [submit, hm, Bool.false_eq_true, if_false, insertEntry]
  unfold sameDayNums sameDayEntries
  simp only [List.filter_append, List.filterMap_append]
  by_cases hd : dayOf now = today
  · simp [hd]
  · simp [hd]

/-- One submission, run sequentially, keeps the same-day order numbers
pairwise distinct. -/
theorem submit_preserves_nodup (db : EntriesDB) (now : Nat) (b : SubmitBody) (today : Nat)
    (h : (sameDayNums db today).Nodup) :
    (sameDayNums (submit db now b).1 today).Nodup := by
  cases hm : messageMissing b
  · rw [sameDayNums_submit db now b today hm]
    by_cases hd : dayOf now = today
    · rw [if_pos hd]
      rw [List.nodup_append]
      refine ⟨h, List.nodup_singleton _, ?_⟩
      intro a ha hb
      have hlt : a < getNextOrderNumber db today := mem_lt_next db today a ha
      have : a = getNextOrderNumber db (dayOf now) := List.mem_singleton.mp hb
      rw [hd] at this
      omega
    · rw [if_neg hd]
      simpa using h
  · simpa [submit, hm] using h

/-! ## Claim C1 -/

def c1BodyA : SubmitBody :=
  { name := none, phoneNumber := none, message := some "order one", status := none }

def c1BodyB : SubmitBody :=
  { name := none, phoneNumber := none, message := some "order two", status := none }

def c1Tasks : List AllocTask :=
  [ { body := c1BodyA, now := 50, phase := AllocPhase.start },
    { body := c1BodyB, now := 60, phase := AllocPhase.start } ]

/-- C1 counterexample: two create calls on the same calendar day whose datastore
round trips interleave as read-read-insert-insert both allocate order number
100, so the resulting same-day orderNumber values are not pairwise distinct. -/
theorem C1_race_counterexample :
    sameDayNums (runSchedule emptyDB c1Tasks [0, 1, 0, 1]).1 0 = [100, 100] ∧
    ¬ (sameDayNums (runSchedule emptyDB c1Tasks [0, 1, 0, 1]).1 0).Nodup := by
  decide

/-- C1 (amended): for every set of create (POST /submit) calls executed without
interleaving at the datastore round-trip boundaries — each call's max-read and
insert complete before the next call starts — the orderNumber values of entries
created on the same calendar day are pairwise distinct, provided the initial
datastore already satisfies that invariant. -/
theorem C1_sequential_submits_distinct (db : EntriesDB) (today : Nat)
    (calls : List (Nat × SubmitBody)) (h : (sameDayNums db today).Nodup) :
    (sameDayNums (runSubmits db calls) today).Nodup := by
  induction calls generalizing db with
  | nil => exact h
  | cons c rest ih =>
    have hstep : runSubmits db (c :: rest) = runSubmits ((submit db c.1 c.2).1) rest := rfl
    rw [hstep]
    exact ih ((submit db c.1 c.2).1) (submit_preserves_nodup db c.1 c.2 today h)

theorem C1_sequential_submits_distinct_witness :
    (sameDayNums emptyDB 0).Nodup ∧
    (sameDayNums (runSubmits emptyDB [(50, c1BodyA), (60, c1BodyB)]) 0).Nodup :=
  ⟨by decide, C1_sequential_submits_distinct emptyDB 0 [(50, c1BodyA), (60, c1BodyB)] (by decide)⟩

/-! ## Claim C2 -/

/-- C2: getNextOrderNumber returns 100 when the same-day maximum is absent
(in particular when today has no rows at all), max + 1 when the stored same-day
maximum parses to an integer, and 100 when the raw driver value fails to parse;
consequently the first submission of a day is stored with orderNumber 100. -/
theorem C2_next_order_number (db : EntriesDB) (today : Nat) (s : String)
    (now : Nat) (b : SubmitBody) :
    (sameDayMax db today = none → getNextOrderNumber db today = 100) ∧
    (∀ m : Int, sameDayMax db today = some m → getNextOrderNumber db today = m + 1) ∧
    (parseIntJS s = none → getNextOrderNumberRaw (some s) = 100) ∧
    (∀ m : Int, parseIntJS s = some m → getNextOrderNumberRaw (some s) = m + 1) ∧
    (sameDayEntries db today = [] → getNextOrderNumber db today = 100) ∧
    (sameDayEntries db (dayOf now) = [] → messageMissing b = false →
      (submit db now b).1.entries =
        db.entries ++
          [{ id := db.nextId, order_number := some 100, name := b.name,
             phone_number := b.phoneNumber, message := b.message.getD "",
             status := "New", created_at := now }]) := by
  have hraw_none : parseIntJS s = none → getNextOrderNumberRaw (some s) = 100 := by
    intro hp
    simp only [getNextOrderNumberRaw]
    rw [hp]
  have hraw_some : ∀ m : Int, parseIntJS s = some m → getNextOrderNumberRaw (some s) = m + 1 := by
    intro m hp
    simp only [getNextOrderNumberRaw]
    rw [hp]
  have hempty : sameDayEntries db today = [] → getNextOrderNumber db today = 100 := by
    intro he
    rw [getNextOrderNumber_eq]
    have : sameDayMax db today = none := by
      unfold sameDayMax sameDayNums
      rw [he]
      rfl
    rw [this]
  refine ⟨?_, ?_, hraw_none, hraw_some, hempty, ?_⟩
  · intro hn
    rw [getNextOrderNumber_eq, hn]
  · intro m hm
    rw [getNextOrderNumber_eq, hm]
  · intro he hm
    have h100 : getNextOrderNumber db (dayOf now) = 100 := by
      rw [getNextOrderNumber_eq]
      have : sameDayMax db (dayOf now) = none := by
        unfold sameDayMax sameDayNums
        rw [he]
        rfl
      rw [this]
    simp only [submit, hm, Bool.false_eq_true, if_false, insertEntry, h100]

theorem C2_next_order_number_witness :
    parseIntJS "oops" = none ∧ getNextOrderNumberRaw (some "oops") = 100 ∧
    sameDayEntries emptyDB 0 = [] ∧ getNextOrderNumber emptyDB 0 = 100 :=
  ⟨by decide,
   (C2_next_order_number emptyDB 0 "oops" 0 c1BodyA).2.2.1 (by decide),
   by decide,
   (C2_next_order_number emptyDB 0 "oops" 0 c1BodyA).2.2.2.2.1 (by decide)⟩

/-! ## Claim C3 -/

/-- The `id` field of a `POST /submit` response, when the submission succeeded. -/
def submitRespId (r : SubmitResp) : Option Int :=
  match r with
  | SubmitResp.badRequest => none
  | SubmitResp.ok v => v.id

def c3Body : SubmitBody :=
  { name := some "Alice", phoneNumber := some "555-1234",
    message := some "2 everything bagels", status := none }

/-- C3 counterexample: on the first successful submission the inserted row's
datastore-assigned surrogate key is 1, but the response's `id` field is
`some 100` — the orderNumber, not the surrogate key (server.js line 126). -/
theorem C3_id_counterexample :
    submitRespId (submit emptyDB 7 c3Body).2 = some 100 ∧
    (submit emptyDB 7 c3Body).1.entries.map Entry.id = [1] ∧
    some (100 : Int) ≠ some ((1 : Nat) : Int) := by
  decide

/-- C3 (amended): for every successful POST /submit the returned entry carries
the freshly stored record's fields under the external naming convention
(`orderNumber`, `phoneNumber`), except that its `id` field equals the inserted
row's orderNumber — the handler deliberately maps `id` to `order_number` for
the frontend — rather than the datastore-assigned surrogate key. -/
theorem C3_submit_response_shape (db : EntriesDB) (now : Nat) (b : SubmitBody)
    (h : messageMissing b = false) :
    ∃ row : Entry, ∃ v : EntryView,
      (submit db now b).1.entries = db.entries ++ [row] ∧
      (submit db now b).2 = SubmitResp.ok v ∧
      row.id = db.nextId ∧
      v.id = row.order_number ∧
      v.orderNumber = row.order_number ∧
      v.name = row.name ∧
      v.phoneNumber = row.phone_number ∧
      v.message = row.message ∧
      v.status = row.status ∧
      v.created_at = row.created_at := by
  refine ⟨(insertEntry db (getNextOrderNumber db (dayOf now)) b now).2,
    submitViewOfEntry (insertEntry db (getNextOrderNumber db (dayOf now)) b now).2,
    ?_, ?_, rfl, rfl, rfl, rfl, rfl, rfl, rfl, rfl⟩
  · simp only [submit, h, Bool.false_eq_true, if_false]
    rfl
  · simp only [submit, h, Bool.false_eq_true, if_false]

theorem C3_submit_response_shape_witness :
    messageMissing c3Body = false ∧
    (∃ row : Entry, ∃ v : EntryView,
      (submit emptyDB 7 c3Body).1.entries = emptyDB.entries ++ [row] ∧
      (submit emptyDB 7 c3Body).2 = SubmitResp.ok v ∧
      row.id = emptyDB.nextId ∧
      v.id = row.order_number ∧
      v.orderNumber = row.order_number ∧
      v.name = row.name ∧
      v.phoneNumber = row.phone_number ∧
      v.message = row.message ∧
      v.status = row.status ∧
      v.created_at = row.created_at) :=
  ⟨by decide, C3_submit_response_shape emptyDB 7 c3Body (by decide)⟩

/-! ## Claim C4 -/

theorem validKey_ne_empty (envKey : Option String) : validKey envKey ≠ "" := by
  cases envKey with
  | none => decide
  | some s =>
    show (if s = "" then "bagel2024secret" else s) ≠ ""
    by_cases h : s = ""
    · rw [if_pos h]; decide
    · rw [if_neg h]; exact h

theorem checkApiKey_validKey (envKey : Option String) :
    checkApiKey (some (validKey envKey)) envKey = true := by
  simp only [checkApiKey]
  rw [if_neg (validKey_ne_empty envKey)]
  exact beq_self_eq_true (validKey envKey)

/-- C4: an authorized GET /store-status on an empty `store_status` table
returns `{store_closed: false, notes: ""}` and leaves exactly one row; a second
sequential call still leaves exactly one row, and every sequential call
preserves the invariant that at most one row exists. -/
theorem C4_store_status_lazy_create (db : StoreDB) (envKey : Option String)
    (h : db.rows = []) :
    ((getStoreStatusRoute (some (validKey envKey)) envKey db).2.1 =
      StoreResp.getOk false "") ∧
    ((getStoreStatusRoute (some (validKey envKey)) envKey db).1.rows.length = 1) ∧
    ((getStoreStatusRoute (some (validKey envKey)) envKey
        ((getStoreStatusRoute (some (validKey envKey)) envKey db).1)).1.rows.length = 1) ∧
    (∀ db2 : StoreDB, db2.rows.length ≤ 1 →
      (getStoreStatusRoute (some (validKey envKey)) envKey db2).1.rows.length ≤ 1) := by
  have hk := checkApiKey_validKey envKey
  have hone : ∀ db2 : StoreDB, db2.rows = [] →
      (getStoreStatusRoute (some (validKey envKey)) envKey db2).1.rows.length = 1 ∧
      (getStoreStatusRoute (some (validKey envKey)) envKey db2).2.1 =
        StoreResp.getOk false "" := by
    intro db2 h2
    simp [getStoreStatusRoute, hk, h2]
  have hkeep : ∀ (db2 : StoreDB) (r : StoreRow) (t : List StoreRow), db2.rows = r :: t →
      getStoreStatusRoute (some (validKey envKey)) envKey db2 =
        (db2, StoreResp.getOk r.store_closed r.notes, 1) := by
    intro db2 r t h2
    simp [getStoreStatusRoute, hk, h2]
  refine ⟨(hone db h).2, (hone db h).1, ?_, ?_⟩
  · cases hr : (getStoreStatusRoute (some (validKey envKey)) envKey db).1.rows with
    | nil =>
      have := (hone db h).1
      rw [hr] at this
      simp at this
    | cons r t =>
      rw [hkeep _ r t hr]
      exact (hone db h).1
  · intro db2 hle
    cases hr : db2.rows with
    | nil => exact le_of_eq (hone db2 hr).1
    | cons r t =>
      rw [hkeep db2 r t hr]
      exact hle

theorem C4_store_status_lazy_create_witness :
    emptyStoreDB.rows = [] ∧
    ((getStoreStatusRoute (some (validKey none)) none emptyStoreDB).2.1 =
      StoreResp.getOk false "") ∧
    ((getStoreStatusRoute (some (validKey none)) none emptyStoreDB).1.rows.length = 1) ∧
    ((getStoreStatusRoute (some (validKey none)) none
        ((getStoreStatusRoute (some (validKey none)) none emptyStoreDB).1)).1.rows.length = 1) ∧
    (∀ db2 : StoreDB, db2.rows.length ≤ 1 →
      (getStoreStatusRoute (some (validKey none)) none db2).1.rows.length ≤ 1) :=
  ⟨rfl, C4_store_status_lazy_create emptyStoreDB none rfl⟩

/-! ## Claim C5 -/

theorem map_id_of_fix {α : Type} (f : α → α) : ∀ l : List α,
    (∀ x ∈ l, f x = x) → l.map f = l := by
  intro l
  induction l with
  | nil => intro _; rfl
  | cons x t ih =>
    intro h
    rw [List.map_cons, h x (List.mem_cons_self x t),
      ih (fun y hy => h y (List.mem_cons_of_mem x hy))]

/-- C5: `PUT /entries/:id/status` with a non-empty status and an id matching no
entry row responds 404 and leaves the entries table (and the whole datastore
state) unmodified. -/
theorem C5_update_missing_id (db : EntriesDB) (id : Nat) (s : String)
    (hs : s ≠ "") (h : ∀ e ∈ db.entries, e.id ≠ id) :
    updateStatus db id (some s) = (db, UpdateResp.notFound) := by
  have hmiss : statusMissingB (some s) = false := by
    show (s == "") = false
    exact beq_eq_false_iff_ne.mpr hs
  have hfix : ∀ e ∈ db.entries,
      (if e.id == id then { e with status := (some s).getD "" } else e) = e := by
    intro e he
    rw [if_neg ?_]
    simp only [beq_iff_eq]
    exact h e he
  have hmap : db.entries.map
      (fun e => if e.id == id then { e with status := (some s).getD "" } else e) = db.entries :=
    map_id_of_fix _ db.entries hfix
  have hfilter : db.entries.filter (fun e => e.id == id) = [] := by
    rw [List.filter_eq_nil_iff]
    intro e he
    simp only [beq_iff_eq]
    exact h e he
  simp only [updateStatus, hmiss, Bool.false_eq_true, if_false, hmap, hfilter, List.head?_nil]

def c5Db : EntriesDB :=
  { entries :=
      [{ id := 1, order_number := some 100, name := none, phone_number := none,
         message := "bagel", status := "New", created_at := 5 }],
    nextId := 2 }

theorem C5_update_missing_id_witness :
    ("Done" : String) ≠ "" ∧ (∀ e ∈ c5Db.entries, e.id ≠ 2) ∧
    updateStatus c5Db 2 (some "Done") = (c5Db, UpdateResp.notFound) :=
  ⟨by decide, by decide, C5_update_missing_id c5Db 2 "Done" (by decide) (by decide)⟩

/-! ## Claim C6 -/

/-- C6: a POST /submit whose body lacks a message (absent or empty string) is
answered 400 before the allocator or the INSERT run: the datastore is returned
unchanged and no row is persisted. -/
theorem C6_submit_requires_message (db : EntriesDB) (now : Nat) (b : SubmitBody)
    (h : b.message = none ∨ b.message = some "") :
    submit db now b = (db, SubmitResp.badRequest) := by
  have hm : messageMissing b = true := by
    unfold messageMissing
    rcases h with h | h <;> simp [h]
  simp [submit, hm]

def c6Body : SubmitBody :=
  { name := some "Bob", phoneNumber := none, message := none, status := none }

theorem C6_submit_requires_message_witness :
    (c6Body.message = none ∨ c6Body.message = some "") ∧
    submit emptyDB 3 c6Body = (emptyDB, SubmitResp.badRequest) :=
  ⟨Or.inl rfl, C6_submit_requires_message emptyDB 3 c6Body (Or.inl rfl)⟩

/-! ## Claim C8 -/

theorem checkApiKey_false (apiKey envKey : Option String)
    (h : apiKey ≠ some (validKey envKey)) : checkApiKey apiKey envKey = false := by
  cases apiKey with
  | none => rfl
  | some k =>
    show (if k = "" then false else k == validKey envKey) = false
    by_cases hk : k = ""
    · rw [if_pos hk]
    · rw [if_neg hk]
      rw [beq_eq_false_iff_ne]
      intro he
      exact h (by rw [he])

/-- C8: a GET or PUT on /store-status whose x-api-key header is absent or does
not equal the configured key is answered 403 with zero datastore round trips,
so the datastore state is unchanged. -/
theorem C8_store_status_forbidden (db : StoreDB) (envKey apiKey : Option String)
    (b : PutBody) (h : apiKey ≠ some (validKey envKey)) :
    getStoreStatusRoute apiKey envKey db = (db, StoreResp.forbidden, 0) ∧
    putStoreStatusRoute apiKey envKey b db = (db, StoreResp.forbidden, 0) := by
  have hk := checkApiKey_false apiKey envKey h
  constructor
  · simp [getStoreStatusRoute, hk]
  · simp [putStoreStatusRoute, hk]

theorem C8_store_status_forbidden_witness :
    (some "wrong-key" : Option String) ≠ some (validKey none) ∧
    getStoreStatusRoute (some "wrong-key") none emptyStoreDB =
      (emptyStoreDB, StoreResp.forbidden, 0) ∧
    putStoreStatusRoute (some "wrong-key") none { store_closed := true, notes := none }
      emptyStoreDB = (emptyStoreDB, StoreResp.forbidden, 0) :=
  ⟨by decide,
   (C8_store_status_forbidden emptyStoreDB none (some "wrong-key")
     { store_closed := true, notes := none } (by decide)).1,
   (C8_store_status_forbidden emptyStoreDB none (some "wrong-key")
     { store_closed := true, notes := none } (by decide)).2⟩

/-! ## Claim C7 -/

theorem sortByCreated_perm (l : List Entry) : (sortByCreated l).Perm l :=
  List.perm_insertionSort createdDesc l

theorem sortByCreated_sorted_views (l : List Entry) :
    ((sortByCreated l).map viewOfEntry).Pairwise
      (fun a b => b.created_at ≤ a.created_at) := by
  have h : (sortByCreated l).Pairwise createdDesc :=
    List.sorted_insertionSort createdDesc l
  rw [List.pairwise_map]
  exact h

/-- C7: `GET /entries?status=s` (for a non-empty `s`) returns exactly the
entries whose stored status is an exact, case-sensitive match, `GET /entries`
returns all entries, both ordered by `created_at` descending, and neither
call modifies the datastore. -/
theorem C7_list_spec (db : EntriesDB) (s : String) (hs : s ≠ "") :
    ((listEntries db (some s)).2.Perm
        ((db.entries.filter (fun e => e.status == s)).map viewOfEntry) ∧
      (listEntries db (some s)).2.Pairwise (fun a b => b.created_at ≤ a.created_at) ∧
      (listEntries db (some s)).1 = db) ∧
    ((listEntries db none).2.Perm (db.entries.map viewOfEntry) ∧
      (listEntries db none).2.Pairwise (fun a b => b.created_at ≤ a.created_at) ∧
      (listEntries db none).1 = db) := by
  have hst : statusTruthy (some s) = true := by
    show (!(s == "")) = true
    rw [beq_eq_false_iff_ne.mpr hs]
    rfl
  constructor
  · refine ⟨?_, ?_, rfl⟩
    · show ((sortByCreated (if statusTruthy (some s) then
          db.entries.filter (fun e => e.status == (some s).getD "")
        else db.entries)).map viewOfEntry).Perm
          ((db.entries.filter (fun e => e.status == s)).map viewOfEntry)
      rw [hst, if_pos rfl]
      exact (sortByCreated_perm _).map viewOfEntry
    · exact sortByCreated_sorted_views _
  · refine ⟨?_, ?_, rfl⟩
    · show ((sortByCreated (if statusTruthy none then
          db.entries.filter (fun e => e.status == (none : Option String).getD "")
        else db.entries)).map viewOfEntry).Perm (db.entries.map viewOfEntry)
      show ((sortByCreated db.entries).map viewOfEntry).Perm (db.entries.map viewOfEntry)
      exact (sortByCreated_perm _).map viewOfEntry
    · exact sortByCreated_sorted_views _

def c7Db : EntriesDB :=
  { entries :=
      [{ id := 1, order_number := some 100, name := some "Ann", phone_number := none,
         message := "plain", status := "New", created_at := 10 },
       { id := 2, order_number := some 101, name := some "Ben", phone_number := none,
         message := "sesame", status := "Done", created_at := 20 },
       { id := 3, order_number := some 102, name := some "Cal", phone_number := none,
         message := "onion", status := "New", created_at := 30 }],
    nextId := 4 }

theorem C7_list_spec_witness :
    ("New" : String) ≠ "" ∧
    (((listEntries c7Db (some "New")).2.Perm
        ((c7Db.entries.filter (fun e => e.status == "New")).map viewOfEntry) ∧
      (listEntries c7Db (some "New")).2.Pairwise (fun a b => b.created_at ≤ a.created_at) ∧
      (listEntries c7Db (some "New")).1 = c7Db) ∧
    ((listEntries c7Db none).2.Perm (c7Db.entries.map viewOfEntry) ∧
      (listEntries c7Db none).2.Pairwise (fun a b => b.created_at ≤ a.created_at) ∧
      (listEntries c7Db none).1 = c7Db)) :=
  ⟨by decide, C7_list_spec c7Db "New" (by decide)⟩

/-! ## Claim C9 -/

/-- C9: every successful POST /submit persists the row with the literal status
"New"; a client-supplied `status` field in the body is ignored entirely (the
handler behaves identically with it removed). -/
theorem C9_submit_status_new (db : EntriesDB) (now : Nat) (b : SubmitBody)
    (h : messageMissing b = false) :
    ((submit db now b).1.entries.getLast?).map Entry.status = some "New" ∧
    submit db now b = submit db now { b with status := none } := by
  constructor
  · simp only [submit, h, Bool.false_eq_true, if_false, insertEntry]
    rw [List.getLast?_concat]
    rfl
  · cases b
    rfl

def c9Body : SubmitBody :=
  { name := some "Eve", phoneNumber := some "555-9999",
    message := some "a dozen bagels", status := some "Shipped" }

theorem C9_submit_status_new_witness :
    messageMissing c9Body = false ∧
    (((submit emptyDB 11 c9Body).1.entries.getLast?).map Entry.status = some "New" ∧
      submit emptyDB 11 c9Body = submit emptyDB 11 { c9Body with status := none }) :=
  ⟨by decide, C9_submit_status_new emptyDB 11 c9Body (by decide)⟩

/-! ## Claim C10 -/

/-- C10: a GET /entries whose `status` query parameter is the empty string is
handled exactly like a request with no `status` parameter (`if (status)` is
false for the empty string): all entries, same order, same absence of side
effects. -/
theorem C10_empty_status_like_none (db : EntriesDB) :
    listEntries db (some "") = listEntries db none := rfl
